import Mathlib

/-!
Verification of the stylus binding generator: an embedding of the generator
pipeline (interface declarations → canonical signatures → Keccak-256 call
selectors → mangled wrapper identifiers → emitted Rust source text) together
with the repository's test-helper string extractors, and proofs of the
specification's claims about them.
-/

set_option maxRecDepth 1000000
set_option maxHeartbeats 4000000

namespace StylusBindgen

/-! ## Keccak-256 and the 4-byte call selector

Modelled from the spec: the Selector Engine computes "the first 4 bytes of a
fixed 256-bit cryptographic hash (the same hash construction used by the wider
ecosystem's call-dispatch convention) applied to the UTF-8 bytes of the
Signature".  That construction is Keccak-256 (rate 1088, capacity 512,
multi-rate padding), embedded here over `Nat` with explicit 64-bit masking.
-/

def mask64 : Nat := 2 ^ 64 - 1

/-- 64-bit left rotation over `Nat`, masked to 64 bits. -/
def rotl (x n : Nat) : Nat := ((x <<< n) ||| (x >>> (64 - n))) &&& mask64

/-- The 5×5 lane state of the 1600-bit Keccak permutation; field `aXY` is the
lane at column X, row Y. -/
structure KState where
  a00 : Nat
  a10 : Nat
  a20 : Nat
  a30 : Nat
  a40 : Nat
  a01 : Nat
  a11 : Nat
  a21 : Nat
  a31 : Nat
  a41 : Nat
  a02 : Nat
  a12 : Nat
  a22 : Nat
  a32 : Nat
  a42 : Nat
  a03 : Nat
  a13 : Nat
  a23 : Nat
  a33 : Nat
  a43 : Nat
  a04 : Nat
  a14 : Nat
  a24 : Nat
  a34 : Nat
  a44 : Nat
deriving DecidableEq

def roundConsts : List Nat :=
  [0x0000000000000001, 0x0000000000008082, 0x800000000000808a, 0x8000000080008000,
   0x000000000000808b, 0x0000000080000001, 0x8000000080008081, 0x8000000000008009,
   0x000000000000008a, 0x0000000000000088, 0x0000000080008009, 0x000000008000000a,
   0x000000008000808b, 0x800000000000008b, 0x8000000000008089, 0x8000000000008003,
   0x8000000000008002, 0x8000000000000080, 0x000000000000800a, 0x800000008000000a,
   0x8000000080008081, 0x8000000000008080, 0x0000000080000001, 0x8000000080008008]

/-- One round of Keccak-f[1600]: theta, rho, pi, chi and iota, unrolled over
the 25 lanes. -/
def keccakRound (s : KState) (rc : Nat) : KState :=
  let c0 := s.a00 ^^^ s.a01 ^^^ s.a02 ^^^ s.a03 ^^^ s.a04
  let c1 := s.a10 ^^^ s.a11 ^^^ s.a12 ^^^ s.a13 ^^^ s.a14
  let c2 := s.a20 ^^^ s.a21 ^^^ s.a22 ^^^ s.a23 ^^^ s.a24
  let c3 := s.a30 ^^^ s.a31 ^^^ s.a32 ^^^ s.a33 ^^^ s.a34
  let c4 := s.a40 ^^^ s.a41 ^^^ s.a42 ^^^ s.a43 ^^^ s.a44
  let d0 := c4 ^^^ rotl c1 1
  let d1 := c0 ^^^ rotl c2 1
  let d2 := c1 ^^^ rotl c3 1
  let d3 := c2 ^^^ rotl c4 1
  let d4 := c3 ^^^ rotl c0 1
  let t00 := s.a00 ^^^ d0
  let t10 := s.a10 ^^^ d1
  let t20 := s.a20 ^^^ d2
  let t30 := s.a30 ^^^ d3
  let t40 := s.a40 ^^^ d4
  let t01 := s.a01 ^^^ d0
  let t11 := s.a11 ^^^ d1
  let t21 := s.a21 ^^^ d2
  let t31 := s.a31 ^^^ d3
  let t41 := s.a41 ^^^ d4
  let t02 := s.a02 ^^^ d0
  let t12 := s.a12 ^^^ d1
  let t22 := s.a22 ^^^ d2
  let t32 := s.a32 ^^^ d3
  let t42 := s.a42 ^^^ d4
  let t03 := s.a03 ^^^ d0
  let t13 := s.a13 ^^^ d1
  let t23 := s.a23 ^^^ d2
  let t33 := s.a33 ^^^ d3
  let t43 := s.a43 ^^^ d4
  let t04 := s.a04 ^^^ d0
  let t14 := s.a14 ^^^ d1
  let t24 := s.a24 ^^^ d2
  let t34 := s.a34 ^^^ d3
  let t44 := s.a44 ^^^ d4
  let b00 := t00
  let b10 := rotl t11 44
  let b20 := rotl t22 43
  let b30 := rotl t33 21
  let b40 := rotl t44 14
  let b01 := rotl t30 28
  let b11 := rotl t41 20
  let b21 := rotl t02 3
  let b31 := rotl t13 45
  let b41 := rotl t24 61
  let b02 := rotl t10 1
  let b12 := rotl t21 6
  let b22 := rotl t32 25
  let b32 := rotl t43 8
  let b42 := rotl t04 18
  let b03 := rotl t40 27
  let b13 := rotl t01 36
  let b23 := rotl t12 10
  let b33 := rotl t23 15
  let b43 := rotl t34 56
  let b04 := rotl t20 62
  let b14 := rotl t31 55
  let b24 := rotl t42 39
  let b34 := rotl t03 41
  let b44 := rotl t14 2
  { a00 := (b00 ^^^ ((b10 ^^^ mask64) &&& b20)) ^^^ rc
    a10 := b10 ^^^ ((b20 ^^^ mask64) &&& b30)
    a20 := b20 ^^^ ((b30 ^^^ mask64) &&& b40)
    a30 := b30 ^^^ ((b40 ^^^ mask64) &&& b00)
    a40 := b40 ^^^ ((b00 ^^^ mask64) &&& b10)
    a01 := b01 ^^^ ((b11 ^^^ mask64) &&& b21)
    a11 := b11 ^^^ ((b21 ^^^ mask64) &&& b31)
    a21 := b21 ^^^ ((b31 ^^^ mask64) &&& b41)
    a31 := b31 ^^^ ((b41 ^^^ mask64) &&& b01)
    a41 := b41 ^^^ ((b01 ^^^ mask64) &&& b11)
    a02 := b02 ^^^ ((b12 ^^^ mask64) &&& b22)
    a12 := b12 ^^^ ((b22 ^^^ mask64) &&& b32)
    a22 := b22 ^^^ ((b32 ^^^ mask64) &&& b42)
    a32 := b32 ^^^ ((b42 ^^^ mask64) &&& b02)
    a42 := b42 ^^^ ((b02 ^^^ mask64) &&& b12)
    a03 := b03 ^^^ ((b13 ^^^ mask64) &&& b23)
    a13 := b13 ^^^ ((b23 ^^^ mask64) &&& b33)
    a23 := b23 ^^^ ((b33 ^^^ mask64) &&& b43)
    a33 := b33 ^^^ ((b43 ^^^ mask64) &&& b03)
    a43 := b43 ^^^ ((b03 ^^^ mask64) &&& b13)
    a04 := b04 ^^^ ((b14 ^^^ mask64) &&& b24)
    a14 := b14 ^^^ ((b24 ^^^ mask64) &&& b34)
    a24 := b24 ^^^ ((b34 ^^^ mask64) &&& b44)
    a34 := b34 ^^^ ((b44 ^^^ mask64) &&& b04)
    a44 := b44 ^^^ ((b04 ^^^ mask64) &&& b14) }

/-- The full 24-round Keccak-f[1600] permutation. -/
def keccakF (s : KState) : KState := roundConsts.foldl keccakRound s

/-- Multi-rate padding for rate 136 bytes: append `0x01`, zero or more `0x00`,
then `0x80` (collapsed to a single `0x81` when exactly one byte is free). -/
def padMessage (msg : List Nat) : List Nat :=
  let r := 136
  let padLen := r - msg.length % r
  if padLen = 1 then msg ++ [0x81]
  else msg ++ [0x01] ++ List.replicate (padLen - 2) 0 ++ [0x80]

/-- Assemble one little-endian 64-bit lane from eight bytes of a block. -/
def bytesToLane (block : List Nat) (off : Nat) : Nat :=
  (block.getD off 0) ||| ((block.getD (off + 1) 0) <<< 8) ||| ((block.getD (off + 2) 0) <<< 16) |||
  ((block.getD (off + 3) 0) <<< 24) ||| ((block.getD (off + 4) 0) <<< 32) |||
  ((block.getD (off + 5) 0) <<< 40) ||| ((block.getD (off + 6) 0) <<< 48) |||
  ((block.getD (off + 7) 0) <<< 56)

/-- Absorb one 136-byte block: xor its 17 lanes into the state (lanes 17–24
belong to the capacity and are untouched), then permute. -/
def absorbBlock (s : KState) (block : List Nat) : KState :=
  keccakF
    { s with
      a00 := s.a00 ^^^ bytesToLane block 0
      a10 := s.a10 ^^^ bytesToLane block 8
      a20 := s.a20 ^^^ bytesToLane block 16
      a30 := s.a30 ^^^ bytesToLane block 24
      a40 := s.a40 ^^^ bytesToLane block 32
      a01 := s.a01 ^^^ bytesToLane block 40
      a11 := s.a11 ^^^ bytesToLane block 48
      a21 := s.a21 ^^^ bytesToLane block 56
      a31 := s.a31 ^^^ bytesToLane block 64
      a41 := s.a41 ^^^ bytesToLane block 72
      a02 := s.a02 ^^^ bytesToLane block 80
      a12 := s.a12 ^^^ bytesToLane block 88
      a22 := s.a22 ^^^ bytesToLane block 96
      a32 := s.a32 ^^^ bytesToLane block 104
      a42 := s.a42 ^^^ bytesToLane block 112
      a03 := s.a03 ^^^ bytesToLane block 120
      a13 := s.a13 ^^^ bytesToLane block 128 }

def zeroState : KState :=
  ⟨0, 0, 0, 0, 0, 0, 0, 0, 0, 0, 0, 0, 0, 0, 0, 0, 0, 0, 0, 0, 0, 0, 0, 0, 0⟩

/-- Split a padded message into 136-byte blocks (the first argument is fuel,
instantiated with the list length so the recursion is structural). -/
def splitBlocks : Nat → List Nat → List (List Nat)
  | 0, _ => []
  | _ + 1, [] => []
  | fuel + 1, l => l.take 136 :: splitBlocks fuel (l.drop 136)

/-- Sponge state after absorbing an entire (padded) message. -/
def keccakState (msg : List Nat) : KState :=
  let padded := padMessage msg
  (splitBlocks padded.length padded).foldl absorbBlock zeroState

/-- UTF-8 bytes of a string; all signature strings involved are ASCII, where
code points and UTF-8 bytes agree. -/
def strBytes (s : String) : List Nat := s.data.map Char.toNat

/-- The 4-byte call selector of a canonical signature, packed big-endian into
one `Nat`: the first four output bytes of Keccak-256 of the signature text. -/
def selectorNat (sig : String) : Nat :=
  let l0 := (keccakState (strBytes sig)).a00
  ((l0 &&& 255) <<< 24) ||| (((l0 >>> 8) &&& 255) <<< 16) |||
    (((l0 >>> 16) &&& 255) <<< 8) ||| ((l0 >>> 24) &&& 255)

/-- Lowercase hex digit of a nibble: code 48 + k for digits, 87 + k for the
letters a-f. -/
def hexChar (n : Nat) : Char :=
  if n % 16 < 10 then Char.ofNat (48 + n % 16) else Char.ofNat (87 + n % 16)

/-- The selector of a signature as exactly 8 lowercase hex characters. -/
def selectorHex (sig : String) : String :=
  let n := selectorNat sig
  ⟨[n >>> 28, n >>> 24, n >>> 20, n >>> 16, n >>> 12, n >>> 8, n >>> 4, n].map hexChar⟩

/-! ## The canonical type model

Modelled from the spec: the Type Canonicalizer's closed set of variants
(§3 CanonicalType) with its two pure mappings, the canonical signature token
used for selector hashing and the target (Rust) representation type used for
code emission (§4.2).
-/

inductive SolType where
  | address : SolType
  | boolean : SolType
  | uint : Nat → SolType
  | int : Nat → SolType
  | bytes : SolType
  | bytesN : Nat → SolType
  | array : SolType → SolType
deriving DecidableEq

/-- Modelled from the spec: the canonical signature token of a type, a pure
function of the `SolType` value, always carrying the explicit width. -/
def canonicalToken : SolType → String
  | .address => "address"
  | .boolean => "bool"
  | .uint w => "uint" ++ toString w
  | .int w => "int" ++ toString w
  | .bytes => "bytes"
  | .bytesN n => "bytes" ++ toString n
  | .array e => canonicalToken e ++ "[]"

/-- Modelled from the spec: the static table mapping each canonical type to its
target Rust representation (account identifier → `Address`, 256-bit unsigned →
`U256`, boolean → `bool`, dynamic bytes → `Vec<u8>`, arrays → `Vec` of the
element's target type). -/
def rustType : SolType → String
  | .address => "Address"
  | .boolean => "bool"
  | .uint w => if w = 256 then "U256" else "U" ++ toString w
  | .int w => if w = 256 then "I256" else "I" ++ toString w
  | .bytes => "Vec<u8>"
  | .bytesN n => "[u8; " ++ toString n ++ "]"
  | .array e => "Vec<" ++ rustType e ++ ">"

/-! ## Declarations, signatures, name mangling and bindings -/

/-- Modelled from the spec: a loaded callable-function declaration — a name and
the ordered parameter list of (parameter name, canonical type). -/
structure FunctionDecl where
  name : String
  params : List (String × SolType)
deriving DecidableEq

/-- Modelled from the spec: the canonical signature `name(token1,token2,...)`
built from the declaration's parameter types in order, ignoring return types
and parameter names. -/
def signatureOf (d : FunctionDecl) : String :=
  d.name ++ "(" ++ String.intercalate "," (d.params.map fun p => canonicalToken p.2) ++ ")"

/-- Helper for `toSnakeCase`: walks the characters with the previous original
character in hand to detect case transitions and digit/letter boundaries. -/
def snakeAux : Option Char → List Char → List Char
  | _, [] => []
  | prev, c :: rest =>
    if c.isUpper then
      (match prev with
        | none => [c.toLower]
        | some _ => ['_', c.toLower]) ++ snakeAux (some c) rest
    else if c.isDigit && (match prev with | some p => p.isAlpha | none => false) then
      '_' :: c :: snakeAux (some c) rest
    else
      c :: snakeAux (some c) rest

/-- Modelled from the spec: the Name Mangler's purely lexical conversion of a
mixed-case identifier to snake case, splitting at case transitions and
digit/letter boundaries. -/
def toSnakeCase (s : String) : String := ⟨snakeAux none s.data⟩

/-- Modelled from the spec: the per-declaration Binding — mangled base name,
selector hex text, emitted identifier (base name, separator `__0x`, selector
hex), parameters mapped to target types, and the original signature text. -/
structure Binding where
  baseName : String
  selHex : String
  identifier : String
  originalSig : String
  params : List (String × String)
deriving DecidableEq

/-- Modelled from the spec: produce the Binding of one declaration. -/
def mkBinding (d : FunctionDecl) : Binding :=
  let base := toSnakeCase d.name
  let hex := selectorHex (signatureOf d)
  { baseName := base
    selHex := hex
    identifier := base ++ "__0x" ++ hex
    originalSig := signatureOf d
    params := d.params.map fun p => (p.1, rustType p.2) }

/-- Is some element of the list repeated later in it? -/
def hasDupHex : List String → Bool
  | [] => false
  | x :: xs => xs.contains x || hasDupHex xs

/-- Modelled from the spec: the mangling stage over a whole declaration list;
it refuses to proceed with a fatal duplicate-selector error when two
declarations yield the same selector, and never silently drops a binding. -/
def generateBindings (decls : List FunctionDecl) : Except String (List Binding) :=
  let bs := decls.map mkBinding
  if hasDupHex (bs.map Binding.selHex) then Except.error "duplicate selector"
  else Except.ok bs

/-- Render the `, name: Type` parameter text of a wrapper signature. -/
def paramsText (ps : List (String × String)) : String :=
  String.join (ps.map fun p => ", " ++ p.1 ++ ": " ++ p.2)

/-- Modelled from the spec: the lines the Code Emitter produces for one
wrapper — the original-signature comment, the wrapper signature returning the
two-outcome `Result<Vec<u8>, Vec<u8>>`, and a body referencing the selector
hex text literally inside `hex::decode`. -/
def fnLines (b : Binding) : List String :=
  ["    // Original: " ++ b.originalSig,
   "    pub fn " ++ b.identifier ++ "(&self" ++ paramsText b.params ++ ") " ++
     ("-> Result<Vec<u8>, Vec<u8>>" ++ " \x7b"),
   "        let selector = " ++ ("hex::decode(\"" ++ b.selHex ++ "\")" ++ ".unwrap();"),
   "        Err(selector)",
   "    \x7d",
   ""]

/-- The constructor line of the emitted record type. -/
def ctorLine : String := "    pub fn new(address: Address) -> Self \x7b"

/-- The fixed lines that open the emitted unit: imports, the record type
holding the target's address, and its constructor. -/
def headerLines : List String :=
  ["use stylus_sdk::alloy_primitives::\x7bAddress, U256\x7d;",
   "",
   "pub struct Contract \x7b",
   "    pub address: Address,",
   "\x7d",
   "",
   "impl Contract \x7b",
   ctorLine,
   "        Self \x7b address \x7d",
   "    \x7d",
   ""]

/-- Modelled from the spec: all lines of the emitted unit — the record type
holding the target's address, its constructor, and one wrapper per binding, in
input order. -/
def unitLines (bs : List Binding) : List String :=
  headerLines ++ bs.flatMap fnLines ++ ["\x7d"]

/-- Modelled from the spec: the whole generator pipeline from loaded
declarations to the emitted unit text, failing fast on a duplicate selector. -/
def generateUnit (decls : List FunctionDecl) : Except String String :=
  (generateBindings decls).map fun bs => String.intercalate "\n" (unitLines bs)

/-! ## String search utilities

Character-list models of the substring operations the repository's tests use
(`str::find`, `str::contains`, `str::matches(...).count()`), with positions
counted in characters.
-/

/-- Pattern-first matching kernel of `startsWithL`, structurally recursive on
the pattern. -/
def startsAux : List Char → List Char → Bool
  | [], _ => true
  | _ :: _, [] => false
  | p :: ps, c :: cs => c == p && startsAux ps cs

/-- Does `s` start with `pat`? -/
def startsWithL (s pat : List Char) : Bool := startsAux pat s

/-- Index of the first occurrence of `pat` in `s` (model of `str::find`). -/
def findSubstrIdx : List Char → List Char → Option Nat
  | [], pat => if startsWithL [] pat then some 0 else none
  | c :: rest, pat =>
    if startsWithL (c :: rest) pat then some 0
    else (findSubstrIdx rest pat).map (· + 1)

/-- Does `s` contain `pat`? (model of `str::contains`). -/
def hasSubL : List Char → List Char → Bool
  | [], pat => startsWithL [] pat
  | c :: rest, pat => startsWithL (c :: rest) pat || hasSubL rest pat

/-- Number of positions of `s` at which `pat` occurs; for the patterns used
here no two occurrences can overlap, so this agrees with
`str::matches(pat).count()`. -/
def countSubL : List Char → List Char → Nat
  | [], pat => if startsWithL [] pat then 1 else 0
  | c :: rest, pat =>
    (if startsWithL (c :: rest) pat then 1 else 0) + countSubL rest pat

def hasSub (s pat : String) : Bool := hasSubL s.data pat.data

def countSub (s pat : String) : Nat := countSubL s.data pat.data

def strStartsWith (s pat : String) : Bool := startsWithL s.data pat.data

/-- The last `n` characters of a string. -/
def strTakeRight (s : String) (n : Nat) : String := ⟨s.data.drop (s.data.length - n)⟩

/-! ## The test helpers of `tests/common/mod.rs`

Embedded from the source: `extract_fn_names`, `extract_selector_fns` and
`is_valid_selector_name`, together with the `str::lines` iteration they use.
-/

/-- Split a character list at every newline, keeping every (possibly empty)
chunk; a trailing newline thus yields a final empty chunk. -/
def splitNl : List Char → List (List Char)
  | [] => [[]]
  | c :: rest =>
    if c = '\n' then [] :: splitNl rest
    else
      match splitNl rest with
      | [] => [[c]]
      | p :: ps => (c :: p) :: ps

/-- Strip one trailing carriage return, as `str::lines` does before each
newline. -/
def stripCR (l : List Char) : List Char :=
  match l.reverse with
  | '\r' :: t => t.reverse
  | _ => l

/-- Rust's `str::lines`: split at `\n`, strip one `\r` before each split point,
and drop a final empty chunk. -/
def rustLines (s : String) : List String :=
  match (splitNl s.data).reverse with
  | [] => []
  | last :: revInit =>
    let init := revInit.reverse.map fun l => String.mk (stripCR l)
    if last = [] then init else init ++ [String.mk last]

/-- Index of the first occurrence of a character (model of `str::find(char)`). -/
def findCharIdx : List Char → Char → Option Nat
  | [], _ => none
  | c :: rest, t => if c == t then some 0 else (findCharIdx rest t).map (· + 1)

/-- One loop iteration of `extract_fn_names`: find `"pub fn "` in the line,
then take the text up to the next `'('` after it. -/
def lineFnName (line : String) : Option String :=
  match findSubstrIdx line.data "pub fn ".data with
  | none => none
  | some pos =>
    let after := line.data.drop (pos + 7)
    match findCharIdx after '(' with
    | none => none
    | some paren => some ⟨after.take paren⟩

/-- `extract_fn_names` from `tests/common/mod.rs`: all `pub fn <name>(` names
in the source text, in line order. -/
def extract_fn_names (src : String) : List String :=
  (rustLines src).filterMap lineFnName

/-- `extract_selector_fns` from `tests/common/mod.rs`: the function names with
`new` filtered out. -/
def extract_selector_fns (src : String) : List String :=
  (extract_fn_names src).filter fun n => n != "new"

/-- `is_ascii_hexdigit` on a character. -/
def isAsciiHexdigit (c : Char) : Bool :=
  c.isDigit || ('a' ≤ c && c ≤ 'f') || ('A' ≤ c && c ≤ 'F')

/-- `is_valid_selector_name` from `tests/common/mod.rs`: the name splits at its
first `__0x` with an 8-hex-character remainder. -/
def is_valid_selector_name (name : String) : Bool :=
  match findSubstrIdx name.data "__0x".data with
  | none => false
  | some i =>
    let selector := name.data.drop (i + 4)
    selector.length == 8 && selector.all isAsciiHexdigit

/-! ## The claimed characterization of the extractors

A second, independent formulation of the per-line extraction, following the
claim's words: for each line containing `"pub fn "` followed by a `'('`, the
text between the first `"pub fn "` and the next `'('`; nothing for other
lines.  It is compared with the source-embedded `lineFnName` in claim C10.
-/

/-- The remainder of `s` after the first occurrence of `pat`. -/
def afterFirst : List Char → List Char → Option (List Char)
  | [], pat => if startsWithL [] pat then some [] else none
  | c :: rest, pat =>
    if startsWithL (c :: rest) pat then some ((c :: rest).drop pat.length)
    else afterFirst rest pat

/-- The claim's description of one line's contribution: the text between the
first `"pub fn "` and the next `'('`, when both are present. -/
def specLineFnName (line : String) : Option String :=
  match afterFirst line.data "pub fn ".data with
  | none => none
  | some rest =>
    if rest.contains '(' then some ⟨rest.takeWhile (fun c => c != '(')⟩ else none

/-- Is the character a lowercase hexadecimal digit? -/
def isLowerHexChar (c : Char) : Bool :=
  c.isDigit || ('a' ≤ c && c ≤ 'f')

/-! ## Concrete inputs for the spec's scenarios -/

/-- Scenario A input: one declaration, `transfer(address,uint256)`. -/
def scenarioAInput : List FunctionDecl :=
  [⟨"transfer", [("to", .address), ("value", .uint 256)]⟩]

/-- Scenario B input: the two `safeTransferFrom` overloads. -/
def scenarioBInput : List FunctionDecl :=
  [⟨"safeTransferFrom", [("from", .address), ("to", .address), ("tokenId", .uint 256)]⟩,
   ⟨"safeTransferFrom",
    [("from", .address), ("to", .address), ("tokenId", .uint 256), ("data", .bytes)]⟩]

/-- Scenario C input: a single `supportsInterface(bytes4)` declaration. -/
def scenarioCInput : List FunctionDecl :=
  [⟨"supportsInterface", [("interfaceId", .bytesN 4)]⟩]

/-- The three ERC20 declarations, used as the concrete witness input. -/
def erc20Input : List FunctionDecl :=
  [⟨"approve", [("spender", .address), ("value", .uint 256)]⟩,
   ⟨"balanceOf", [("owner", .address)]⟩,
   ⟨"transfer", [("to", .address), ("value", .uint 256)]⟩]

/-- The unit text the generator emits for Scenario A. -/
def scenarioAText : String :=
  "use stylus_sdk::alloy_primitives::\x7bAddress, U256\x7d;\n\npub struct Contract \x7b\n    pub address: Address,\n\x7d\n\nimpl Contract \x7b\n    pub fn new(address: Address) -> Self \x7b\n        Self \x7b address \x7d\n    \x7d\n\n    // Original: transfer(address,uint256)\n    pub fn transfer__0xa9059cbb(&self, to: Address, value: U256) -> Result<Vec<u8>, Vec<u8>> \x7b\n        let selector = hex::decode(\"a9059cbb\").unwrap();\n        Err(selector)\n    \x7d\n\n\x7d"

/-- The unit text the generator emits for Scenario B. -/
def scenarioBText : String :=
  "use stylus_sdk::alloy_primitives::\x7bAddress, U256\x7d;\n\npub struct Contract \x7b\n    pub address: Address,\n\x7d\n\nimpl Contract \x7b\n    pub fn new(address: Address) -> Self \x7b\n        Self \x7b address \x7d\n    \x7d\n\n    // Original: safeTransferFrom(address,address,uint256)\n    pub fn safe_transfer_from__0x42842e0e(&self, from: Address, to: Address, tokenId: U256) -> Result<Vec<u8>, Vec<u8>> \x7b\n        let selector = hex::decode(\"42842e0e\").unwrap();\n        Err(selector)\n    \x7d\n\n    // Original: safeTransferFrom(address,address,uint256,bytes)\n    pub fn safe_transfer_from__0xb88d4fde(&self, from: Address, to: Address, tokenId: U256, data: Vec<u8>) -> Result<Vec<u8>, Vec<u8>> \x7b\n        let selector = hex::decode(\"b88d4fde\").unwrap();\n        Err(selector)\n    \x7d\n\n\x7d"

/-- The unit text the generator emits for Scenario C. -/
def scenarioCText : String :=
  "use stylus_sdk::alloy_primitives::\x7bAddress, U256\x7d;\n\npub struct Contract \x7b\n    pub address: Address,\n\x7d\n\nimpl Contract \x7b\n    pub fn new(address: Address) -> Self \x7b\n        Self \x7b address \x7d\n    \x7d\n\n    // Original: supportsInterface(bytes4)\n    pub fn supports_interface__0x01ffc9a7(&self, interfaceId: [u8; 4]) -> Result<Vec<u8>, Vec<u8>> \x7b\n        let selector = hex::decode(\"01ffc9a7\").unwrap();\n        Err(selector)\n    \x7d\n\n\x7d"

/-- The Binding the generator produces for `approve(address,uint256)`. -/
def approveBinding : Binding :=
  ⟨"approve", "095ea7b3", "approve__0x095ea7b3", "approve(address,uint256)",
   [("spender", "Address"), ("value", "U256")]⟩

/-- The Binding the generator produces for `balanceOf(address)`. -/
def balanceOfBinding : Binding :=
  ⟨"balance_of", "70a08231", "balance_of__0x70a08231", "balanceOf(address)",
   [("owner", "Address")]⟩

/-- The Binding the generator produces for `transfer(address,uint256)`. -/
def transferBinding : Binding :=
  ⟨"transfer", "a9059cbb", "transfer__0xa9059cbb", "transfer(address,uint256)",
   [("to", "Address"), ("value", "U256")]⟩

/-- The bindings of the three ERC20 declarations. -/
def erc20Bindings : List Binding := [approveBinding, balanceOfBinding, transferBinding]

/-! ## Infrastructure lemmas -/

theorem startsWithL_append_self : ∀ (p r : List Char), startsWithL (p ++ r) p = true
  | [], _ => rfl
  | c :: cs, r => by
      show (c == c && startsWithL (cs ++ r) cs) = true
      simp [startsWithL_append_self cs r]

theorem hasSubL_append_mid : ∀ (xs ps ys : List Char), hasSubL (xs ++ (ps ++ ys)) ps = true
  | [], ps, ys => by
      cases ps with
      | nil => cases ys with
        | nil => rfl
        | cons y yt => rfl
      | cons p pt =>
        show (startsWithL ((p :: pt) ++ ys) (p :: pt) || hasSubL (pt ++ ys) (p :: pt)) = true
        rw [startsWithL_append_self (p :: pt) ys]
        rfl
  | x :: xt, ps, ys => by
      show (startsWithL ((x :: xt) ++ (ps ++ ys)) ps || hasSubL (xt ++ (ps ++ ys)) ps) = true
      rw [hasSubL_append_mid xt ps ys, Bool.or_true]

theorem strTakeRight_append (a t : String) (n : Nat) (h : t.data.length = n) :
    strTakeRight (a ++ t) n = t := by
  subst h
  show String.mk ((a.data ++ t.data).drop ((a.data ++ t.data).length - t.data.length)) = t
  rw [List.length_append, Nat.add_sub_cancel, List.drop_left]

theorem selectorHex_data_length (sig : String) : (selectorHex sig).data.length = 8 := rfl

theorem hexChar_bounded_lower : ∀ k : Fin 16, isLowerHexChar (hexChar k.val) = true := by
  decide

theorem hexChar_lower (n : Nat) : isLowerHexChar (hexChar n) = true := by
  have hmod : hexChar n = hexChar (n % 16) := by
    simp [hexChar, Nat.mod_mod_of_dvd n (dvd_refl 16)]
  rw [hmod]
  exact hexChar_bounded_lower ⟨n % 16, Nat.mod_lt n (by decide)⟩

theorem selectorHex_chars_lower (sig : String) :
    ∀ c ∈ (selectorHex sig).data, isLowerHexChar c = true := by
  intro c hcm
  simp only [selectorHex, List.mem_map] at hcm
  obtain ⟨m, -, rfl⟩ := hcm
  exact hexChar_lower m

theorem mkBinding_suffix (d : FunctionDecl) :
    strTakeRight (mkBinding d).identifier 8 = (mkBinding d).selHex :=
  strTakeRight_append (toSnakeCase d.name ++ "__0x") (selectorHex (signatureOf d)) 8 rfl

theorem generateBindings_ok (decls : List FunctionDecl) (bs : List Binding)
    (h : generateBindings decls = Except.ok bs) :
    bs = decls.map mkBinding ∧ hasDupHex (bs.map Binding.selHex) = false := by
  cases hdup : hasDupHex ((decls.map mkBinding).map Binding.selHex) with
  | false =>
    simp only [generateBindings, hdup] at h
    simp only [Bool.false_eq_true, if_false, Except.ok.injEq] at h
    subst h
    exact ⟨rfl, hdup⟩
  | true =>
    simp only [generateBindings, hdup] at h
    simp at h

theorem hasDupHex_pairwise : ∀ l : List String, hasDupHex l = false → l.Pairwise (· ≠ ·)
  | [], _ => List.Pairwise.nil
  | x :: xs, h => by
    have h' : (xs.contains x || hasDupHex xs) = false := h
    rw [Bool.or_eq_false_iff] at h'
    refine List.Pairwise.cons ?_ (hasDupHex_pairwise xs h'.2)
    intro y hy hxy
    subst hxy
    simp [List.elem_eq_mem, hy] at h'

theorem afterFirst_eq : ∀ (s pat : List Char),
    afterFirst s pat = (findSubstrIdx s pat).map (fun i => s.drop (i + pat.length))
  | [], pat => by
    cases hsw : startsWithL [] pat with
    | true => simp [afterFirst, findSubstrIdx, hsw]
    | false => simp [afterFirst, findSubstrIdx, hsw]
  | c :: rest, pat => by
    cases hsw : startsWithL (c :: rest) pat with
    | true => simp [afterFirst, findSubstrIdx, hsw]
    | false =>
      rw [afterFirst, findSubstrIdx]
      simp only [hsw, Bool.false_eq_true, if_false]
      rw [afterFirst_eq rest pat]
      cases findSubstrIdx rest pat with
      | none => rfl
      | some i => simp [List.drop_succ_cons, Nat.add_right_comm i 1 pat.length]

theorem findChar_take_rel (t : Char) : ∀ l : List Char,
    (match findCharIdx l t with
     | none => (none : Option (List Char))
     | some p => some (l.take p)) =
    (if l.contains t then some (l.takeWhile fun c => c != t) else none)
  | [] => rfl
  | c :: rest => by
    cases hct : c == t with
    | true =>
      rw [beq_iff_eq] at hct
      subst hct
      simp [findCharIdx, List.contains_cons, List.takeWhile_cons]
    | false =>
      have htc : (t == c) = false := by
        rw [beq_eq_false_iff_ne] at hct ⊢
        exact fun h => hct h.symm
      rw [findCharIdx]
      simp only [hct, Bool.false_eq_true, if_false, List.contains_cons, htc, Bool.false_or]
      have ih := findChar_take_rel t rest
      cases hfr : findCharIdx rest t with
      | none =>
        rw [hfr] at ih
        cases hcon : rest.contains t with
        | false => simp [hcon]
        | true => rw [hcon] at ih; simp at ih
      | some p =>
        rw [hfr] at ih
        cases hcon : rest.contains t with
        | false => rw [hcon] at ih; simp at ih
        | true =>
          rw [hcon] at ih
          simp only [if_pos rfl] at ih ⊢
          simp only [Option.map_some', Option.some.injEq] at ih ⊢
          have hbne : (c != t) = true := by simp [bne, hct]
          rw [List.take_succ_cons, List.takeWhile_cons, hbne]
          simp only [if_true, Option.some.injEq] at ih ⊢
          simp [ih]

theorem lineFnName_eq_spec (line : String) : lineFnName line = specLineFnName line := by
  unfold lineFnName specLineFnName
  rw [afterFirst_eq]
  cases findSubstrIdx line.data "pub fn ".data with
  | none => rfl
  | some pos =>
    simp only [Option.map_some']
    have hlen : ("pub fn ".data.length) = 7 := rfl
    rw [hlen]
    have h := findChar_take_rel '(' (line.data.drop (pos + 7))
    cases hfc : findCharIdx (line.data.drop (pos + 7)) '(' with
    | none =>
      rw [hfc] at h
      cases hcon : (line.data.drop (pos + 7)).contains '(' with
      | false => simp [hcon]
      | true => rw [hcon] at h; simp at h
    | some paren =>
      rw [hfc] at h
      cases hcon : (line.data.drop (pos + 7)).contains '(' with
      | false => rw [hcon] at h; simp at h
      | true =>
        rw [hcon] at h
        simp only [if_true, if_pos, Option.some.injEq] at h
        simp [h]

/-! ## Golden equalities for the concrete scenario inputs -/

theorem scenarioA_unit : generateUnit scenarioAInput = Except.ok scenarioAText := rfl

theorem scenarioB_unit : generateUnit scenarioBInput = Except.ok scenarioBText := rfl

theorem scenarioC_unit : generateUnit scenarioCInput = Except.ok scenarioCText := rfl

theorem erc20_bindings_ok : generateBindings erc20Input = Except.ok erc20Bindings := rfl

/-! ## The claims -/

/-- C1: for an input containing the two `safeTransferFrom` overloads — one
with parameters (address, address, uint256) and one with those plus dynamic
bytes — the generated unit contains exactly the two wrappers
`safe_transfer_from__0x42842e0e` (3 parameters) and
`safe_transfer_from__0xb88d4fde` (those plus `data: Vec<u8>`), each defined
exactly once; neither overload is dropped or merged. -/
theorem claim_C1_overload_wrappers :
    ∃ out, generateUnit scenarioBInput = Except.ok out ∧
      extract_selector_fns out =
        ["safe_transfer_from__0x42842e0e", "safe_transfer_from__0xb88d4fde"] ∧
      countSub out "fn safe_transfer_from__0x42842e0e(" = 1 ∧
      countSub out "fn safe_transfer_from__0xb88d4fde(" = 1 ∧
      hasSub out
        "safe_transfer_from__0x42842e0e(&self, from: Address, to: Address, tokenId: U256)" = true ∧
      hasSub out
        "safe_transfer_from__0xb88d4fde(&self, from: Address, to: Address, tokenId: U256, data: Vec<u8>)" = true :=
  ⟨scenarioBText, scenarioB_unit, by decide, by decide, by decide, by decide, by decide⟩

/-- C2: every wrapper of a generated unit carries its own selector hex text
literally in its body, as the argument of a `hex::decode("...")` call, and
that literal equals the 8-character suffix of the wrapper's emitted
identifier. -/
theorem claim_C2_selector_literal_in_body (decls : List FunctionDecl) (bs : List Binding)
    (h : generateBindings decls = Except.ok bs) :
    ∀ b ∈ bs,
      strTakeRight b.identifier 8 = b.selHex ∧
      (fnLines b).any
        (fun l => hasSub l ("hex::decode(\"" ++ strTakeRight b.identifier 8 ++ "\")")) = true := by
  obtain ⟨rfl, -⟩ := generateBindings_ok decls bs h
  intro b hb
  obtain ⟨d, -, rfl⟩ := List.mem_map.1 hb
  refine ⟨mkBinding_suffix d, ?_⟩
  rw [mkBinding_suffix d]
  have h3 : hasSub
      ("        let selector = " ++
        ("hex::decode(\"" ++ (mkBinding d).selHex ++ "\")" ++ ".unwrap();"))
      ("hex::decode(\"" ++ (mkBinding d).selHex ++ "\")") = true :=
    hasSubL_append_mid ("        let selector = ".data)
      (("hex::decode(\"" ++ (mkBinding d).selHex ++ "\")").data) (".unwrap();".data)
  simp [fnLines, h3]

/-- C2 witness: the first ERC20 binding instantiates the theorem. -/
theorem claim_C2_witness :
    strTakeRight approveBinding.identifier 8 = approveBinding.selHex ∧
    (fnLines approveBinding).any
      (fun l => hasSub l ("hex::decode(\"" ++ strTakeRight approveBinding.identifier 8 ++ "\")")) = true :=
  claim_C2_selector_literal_in_body erc20Input erc20Bindings erc20_bindings_ok
    approveBinding (List.mem_cons_self _ _)

/-- C3: the generator is a pure function of the loaded declarations — any two
runs on the same input yield the same output text. -/
theorem claim_C3_deterministic (decls : List FunctionDecl) (out1 out2 : Except String String)
    (h1 : generateUnit decls = out1) (h2 : generateUnit decls = out2) : out1 = out2 := by
  rw [← h1, ← h2]

/-- C3 witness: two runs on the Scenario A input agree. -/
theorem claim_C3_witness : generateUnit scenarioAInput = generateUnit scenarioAInput :=
  claim_C3_deterministic scenarioAInput _ _ rfl rfl

/-- C4: within one generated unit no two wrappers share an identifier suffix —
the 8-character selector suffixes of the emitted identifiers are pairwise
distinct. -/
theorem claim_C4_distinct_suffixes (decls : List FunctionDecl) (bs : List Binding)
    (h : generateBindings decls = Except.ok bs) :
    (bs.map fun b => strTakeRight b.identifier 8).Pairwise (· ≠ ·) := by
  obtain ⟨rfl, hdup⟩ := generateBindings_ok decls bs h
  have hmap : (decls.map mkBinding).map (fun b => strTakeRight b.identifier 8) =
      (decls.map mkBinding).map Binding.selHex :=
    List.map_eq_map_iff.mpr (by
      intro b hb
      obtain ⟨d, -, rfl⟩ := List.mem_map.1 hb
      exact mkBinding_suffix d)
  rw [hmap]
  exact hasDupHex_pairwise _ hdup

/-- C4 witness: the ERC20 unit's three wrapper suffixes are pairwise
distinct. -/
theorem claim_C4_witness :
    (erc20Bindings.map fun b => strTakeRight b.identifier 8).Pairwise (· ≠ ·) :=
  claim_C4_distinct_suffixes erc20Input erc20Bindings erc20_bindings_ok

/-- C5: for the single declaration `transfer(address,uint256)` the generated
output contains the wrapper `transfer__0xa9059cbb` taking an `Address` and a
`U256`, directly preceded by the comment `// Original: transfer(address,uint256)`. -/
theorem claim_C5_scenario_a :
    ∃ out, generateUnit scenarioAInput = Except.ok out ∧
      extract_selector_fns out = ["transfer__0xa9059cbb"] ∧
      hasSub out
        "// Original: transfer(address,uint256)\n    pub fn transfer__0xa9059cbb(&self, to: Address, value: U256)" = true :=
  ⟨scenarioAText, scenarioA_unit, by decide, by decide⟩

/-- C6: for a single `supportsInterface(bytes4)` declaration the generated
unit contains exactly one wrapper, `supports_interface__0x01ffc9a7`, and the
constructor signature `pub fn new(address: Address) -> Self` appears exactly
once. -/
theorem claim_C6_scenario_c :
    ∃ out, generateUnit scenarioCInput = Except.ok out ∧
      extract_selector_fns out = ["supports_interface__0x01ffc9a7"] ∧
      countSub out "pub fn supports_interface__0x01ffc9a7(" = 1 ∧
      countSub out "pub fn new(address: Address) -> Self" = 1 :=
  ⟨scenarioCText, scenarioC_unit, by decide, by decide, by decide⟩

/-- C7: name mangling realizes the claimed conversion table and is purely
lexical — it depends only on the declaration's name, never on its parameter
types. -/
theorem claim_C7_snake_case_table :
    (toSnakeCase "balanceOf" = "balance_of" ∧
     toSnakeCase "getApproved" = "get_approved" ∧
     toSnakeCase "isApprovedForAll" = "is_approved_for_all" ∧
     toSnakeCase "setApprovalForAll" = "set_approval_for_all" ∧
     toSnakeCase "transferFrom" = "transfer_from" ∧
     toSnakeCase "safeTransferFrom" = "safe_transfer_from") ∧
    ∀ d1 d2 : FunctionDecl, d1.name = d2.name →
      (mkBinding d1).baseName = (mkBinding d2).baseName := by
  refine ⟨by decide, ?_⟩
  intro d1 d2 h
  show toSnakeCase d1.name = toSnakeCase d2.name
  rw [h]

/-- C7 witness: the two `safeTransferFrom` overloads share one mangled base
name even though their parameter lists differ. -/
theorem claim_C7_witness :
    (mkBinding ⟨"safeTransferFrom",
      [("from", .address), ("to", .address), ("tokenId", .uint 256)]⟩).baseName =
    (mkBinding ⟨"safeTransferFrom",
      [("from", .address), ("to", .address), ("tokenId", .uint 256), ("data", .bytes)]⟩).baseName :=
  claim_C7_snake_case_table.2 _ _ rfl

/-- C8: every emitted wrapper identifier is its mangled base name, the `__0x`
separator, then a selector part of exactly 8 lowercase hexadecimal
characters. -/
theorem claim_C8_identifier_shape (decls : List FunctionDecl) (bs : List Binding)
    (h : generateBindings decls = Except.ok bs) :
    ∀ b ∈ bs,
      b.identifier = b.baseName ++ "__0x" ++ b.selHex ∧
      b.selHex.data.length = 8 ∧
      ∀ c ∈ b.selHex.data, isLowerHexChar c = true := by
  obtain ⟨rfl, -⟩ := generateBindings_ok decls bs h
  intro b hb
  obtain ⟨d, -, rfl⟩ := List.mem_map.1 hb
  exact ⟨rfl, rfl, selectorHex_chars_lower _⟩

/-- C8 witness: the first ERC20 binding instantiates the theorem. -/
theorem claim_C8_witness :
    approveBinding.identifier = approveBinding.baseName ++ "__0x" ++ approveBinding.selHex ∧
    approveBinding.selHex.data.length = 8 ∧
    ∀ c ∈ approveBinding.selHex.data, isLowerHexChar c = true :=
  claim_C8_identifier_shape erc20Input erc20Bindings erc20_bindings_ok
    approveBinding (List.mem_cons_self _ _)

/-- C9: every line of a generated unit that introduces a `pub fn` is either
the `new` constructor or a wrapper returning the two-outcome
`Result<Vec<u8>, Vec<u8>>`. -/
theorem claim_C9_wrappers_return_result (decls : List FunctionDecl) (bs : List Binding)
    (_h : generateBindings decls = Except.ok bs) :
    ∀ l ∈ unitLines bs, strStartsWith l "    pub fn " = true →
      l = ctorLine ∨ hasSub l "-> Result<Vec<u8>, Vec<u8>>" = true := by
  intro l hl hsw
  have hdr : ∀ x ∈ headerLines, strStartsWith x "    pub fn " = true → x = ctorLine := by
    decide
  rw [unitLines] at hl
  rcases List.mem_append.1 hl with h1 | hbrace
  · rcases List.mem_append.1 h1 with hfix | hfl
    · exact Or.inl (hdr l hfix hsw)
    · obtain ⟨b, _, hwl⟩ := List.exists_of_mem_flatMap hfl
      simp only [fnLines, List.not_mem_nil, List.mem_cons, or_false] at hwl
      rcases hwl with rfl | rfl | rfl | rfl | rfl | rfl
      · have hc : strStartsWith ("    // Original: " ++ b.originalSig) "    pub fn " = false := rfl
        rw [hc] at hsw
        exact (Bool.false_ne_true hsw).elim
      · exact Or.inr
          (hasSubL_append_mid
            (("    pub fn " ++ b.identifier ++ "(&self" ++ paramsText b.params ++ ") ").data)
            ("-> Result<Vec<u8>, Vec<u8>>".data) (" \x7b".data))
      · have hc : strStartsWith
            ("        let selector = " ++
              ("hex::decode(\"" ++ b.selHex ++ "\")" ++ ".unwrap();")) "    pub fn " = false := rfl
        rw [hc] at hsw
        exact (Bool.false_ne_true hsw).elim
      · exact absurd hsw (by decide)
      · exact absurd hsw (by decide)
      · exact absurd hsw (by decide)
  · simp only [List.mem_cons, List.not_mem_nil, or_false] at hbrace
    subst hbrace
    exact absurd hsw (by decide)

/-- C9 witness: the ERC20 `approve` wrapper line instantiates the theorem. -/
theorem claim_C9_witness :
    "    pub fn approve__0x095ea7b3(&self, spender: Address, value: U256) -> Result<Vec<u8>, Vec<u8>> \x7b" = ctorLine ∨
    hasSub "    pub fn approve__0x095ea7b3(&self, spender: Address, value: U256) -> Result<Vec<u8>, Vec<u8>> \x7b"
      "-> Result<Vec<u8>, Vec<u8>>" = true :=
  claim_C9_wrappers_return_result erc20Input erc20Bindings erc20_bindings_ok
    _ (by decide) (by decide)

/-- C10: `extract_selector_fns` is `extract_fn_names` with the `new` entries
removed, order preserved; and `extract_fn_names` contributes, per line of its
input and in line order, exactly the text between the first `"pub fn "` and
the next `'('` when both are present, nothing otherwise. -/
theorem claim_C10_extractor_relation (src : String) :
    extract_selector_fns src = (extract_fn_names src).filter (fun n => n != "new") ∧
    extract_fn_names src = (rustLines src).filterMap specLineFnName := by
  refine ⟨rfl, ?_⟩
  unfold extract_fn_names
  rw [show lineFnName = specLineFnName from funext lineFnName_eq_spec]

end StylusBindgen
